import Mathlib

/-!
The prompt loop of `survey.go`: a shallow embedding of `Ask` and `AskOne` (package `survey`).

* The terminal, the standard output and everything else a prompt can touch is
  an explicit world `W` that is passed from call to call.
* The collaborators that live outside `survey.go` (`terminal.GetReadline`,
  `core.RunTemplate`, `fmt.Print`, `core.WriteAnswer`, `errors.New`) are the
  fields of an environment `Env`; nothing is assumed about them.
* A Go result pair `(value, error)` is a pair whose second component is an
  `Option`: `none` is the `nil` error.
* The re-prompt loop of lines 68-81 has no bound in the source; the embedding
  runs it with a fuel counter that bounds the number of validator calls and
  reports `Exit.hang` when the counter runs out.
  A run that does not end for lack of fuel is the same with more fuel
  (`Ask_fuel_succ`).
* Every call to a collaborator is appended to a log, in the order the calls
  are made, so that statements about what was called, and when, can be read
  off the final state.
* A validator is a pure function, as the specification requires. A nil
  `*Question` and a nil `Prompt`, on which the Go code panics, are not
  represented.
-/

namespace Survey

/-- Validator is `func(interface{}) error`: `none` is the nil error, that is,
the answer is accepted. -/
abbrev Validator (A E : Type) := A → Option E

/-- Prompt is the interface with the two methods `Prompt` and `Cleanup`; both
receive the readline instance and act on the world. -/
structure Prompt (W RL A E : Type) where
  Prompt : RL → W → (A × Option E) × W
  Cleanup : RL → A → W → Option E × W

/-- Question is the struct of lines 16-20. A field left out of a literal has
its Go zero value: the empty name, the nil validator. -/
structure Question (W RL A E : Type) where
  Name : String := ""
  Prompt : Survey.Prompt W RL A E
  Validate : Option (Validator A E) := none

/-- ErrorTemplate is the string of lines 29-30. -/
def ErrorTemplate : String :=
  "\x7b\x7bcolor \"red\"\x7d\x7d✘ Sorry, your reply was invalid: \x7b\x7b.Error\x7d\x7d\x7b\x7bcolor \"reset\"\x7d\x7d\n"

/-- Env collects the functions `Ask` calls that are defined outside
`survey.go`. -/
structure Env (W RL T A E : Type) where
  /-- terminal.GetReadline() -/
  GetReadline : W → (RL × Option E) × W
  /-- core.RunTemplate(tmpl, data) -/
  RunTemplate : String → E → String × Option E
  /-- fmt.Print(out) -/
  Print : String → W → W
  /-- core.WriteAnswer(t, name, value): the error and the record afterwards -/
  WriteAnswer : T → String → A → Option E × T
  /-- errors.New(text) -/
  errorsNew : String → E

/-- Event is one call made by `Ask`, as recorded in the log. -/
inductive Event (A : Type) where
  /-- terminal.GetReadline() -/
  | acquire
  /-- q.Prompt.Prompt(rl), for the question of that name -/
  | prompt (name : String)
  /-- q.Validate(ans) -/
  | validate (name : String) (ans : A)
  /-- fmt.Print(out) -/
  | print (out : String)
  /-- q.Prompt.Cleanup(rl, ans) -/
  | cleanup (name : String) (ans : A)
  /-- core.WriteAnswer(t, q.Name, ans) -/
  | write (name : String) (ans : A)
  deriving DecidableEq, Repr

/-- State is the world together with the log of the calls made so far. -/
structure State (W A : Type) where
  world : W
  log : List (Event A)
  deriving DecidableEq, Repr

/-- Exit says how a run ended: at the `return` statement of the given source
line with the given error value, or still inside the re-prompt loop when the
fuel ran out. -/
inductive Exit (E : Type) where
  | ret (line : Nat) (err : Option E)
  | hang
  deriving DecidableEq, Repr

/-- The error value handed to the caller, if the run returned at all. -/
def Exit.err {E : Type} : Exit E → Option (Option E)
  | .ret _ e => some e
  | .hang => none

variable {W RL T A E : Type}

/-- The loop of lines 68-81, entered with the current answer. One unit of fuel
is spent on each evaluation of `q.Validate(ans)`. The result is the accepted
answer, or the exit taken from inside the loop. -/
def validateLoop (env : Env W RL T A E) (q : Question W RL A E) (v : Validator A E) (rl : RL) :
    Nat → A → State W A → Except (Exit E) A × State W A
  | 0, _, s => (.error .hang, s)
  | fuel + 1, ans, s =>
    -- invalid := q.Validate(ans)
    let s1 : State W A := ⟨s.world, s.log ++ [.validate q.Name ans]⟩
    match v ans with
    | none => (.ok ans, s1)
    | some invalid =>
      -- out, err := core.RunTemplate(ErrorTemplate, invalid)
      let r := env.RunTemplate ErrorTemplate invalid
      match r.2 with
      | some e => (.error (.ret 71 (some e)), s1)
      | none =>
        -- fmt.Print(out)
        let s2 : State W A := ⟨env.Print r.1 s1.world, s1.log ++ [.print r.1]⟩
        -- ans, err = q.Prompt.Prompt(rl)
        let p := q.Prompt.Prompt rl s2.world
        let s3 : State W A := ⟨p.2, s2.log ++ [.prompt q.Name]⟩
        match p.1.2 with
        | some e => (.error (.ret 79 (some e)), s3)
        | none => validateLoop env q v rl fuel p.1.1 s3

/-- The body of the `for _, q := range qs` loop, lines 58-98. The result is
`none` when the body runs to its end (the loop goes on with the next question)
and the exit when the body returns. The variable `err` tested on line 88 is the
one declared on line 59: the `err` assigned on line 76 is the one declared on
line 69, in the scope of the inner loop. -/
def askQuestion (env : Env W RL T A E) (fuel : Nat) (rl : RL) (q : Question W RL A E)
    (t : T) (s : State W A) : Option (Exit E) × T × State W A :=
  -- ans, err := q.Prompt.Prompt(rl)
  let p := q.Prompt.Prompt rl s.world
  let err := p.1.2
  let s1 : State W A := ⟨p.2, s.log ++ [.prompt q.Name]⟩
  match err with
  | some e => (some (.ret 62 (some e)), t, s1)
  | none =>
    -- if q.Validate != nil { for ... }
    let l : Except (Exit E) A × State W A :=
      match q.Validate with
      | none => (.ok p.1.1, s1)
      | some v => validateLoop env q v rl fuel p.1.1 s1
    match l with
    | (.error x, s2) => (some x, t, s2)
    | (.ok ans, s2) =>
      -- q.Prompt.Cleanup(rl, ans): the returned error is dropped
      let c := q.Prompt.Cleanup rl ans s2.world
      let s3 : State W A := ⟨c.2, s2.log ++ [.cleanup q.Name ans]⟩
      -- if err != nil
      match err with
      | some e => (some (.ret 90 (some e)), t, s3)
      | none =>
        -- err = core.WriteAnswer(t, q.Name, ans)
        let w := env.WriteAnswer t q.Name ans
        let s4 : State W A := ⟨s3.world, s3.log ++ [.write q.Name ans]⟩
        match w.1 with
        | some e => (some (.ret 97 (some e)), w.2, s4)
        | none => (none, w.2, s4)

/-- The `for _, q := range qs` loop of lines 57-101. -/
def askLoop (env : Env W RL T A E) (fuel : Nat) (rl : RL) :
    List (Question W RL A E) → T → State W A → Exit E × T × State W A
  | [], t, s => (.ret 101 none, t, s)
  | q :: qs, t, s =>
    match askQuestion env fuel rl q t s with
    | (some x, t1, s1) => (x, t1, s1)
    | (none, t1, s1) => askLoop env fuel rl qs t1 s1

/-- Ask, lines 43-102. The target is `none` for a nil `t`. The run starts in
world `w` with an empty log. -/
def Ask (env : Env W RL T A E) (fuel : Nat) (qs : List (Question W RL A E))
    (t : Option T) (w : W) : Exit E × Option T × State W A :=
  -- rl, err := terminal.GetReadline()
  let g := env.GetReadline w
  let s : State W A := ⟨g.2, [.acquire]⟩
  match g.1.2 with
  | some e => (.ret 47 (some e), t, s)
  | none =>
    match t with
    | none =>
      (.ret 53 (some (env.errorsNew
        "cannot call Ask() with a nil reference to record the answers")), none, s)
    | some t0 =>
      let r := askLoop env fuel g.1.1 qs t0 s
      (r.1, some r.2.1, r.2.2)

/-- AskOne, lines 33-40. -/
def AskOne (env : Env W RL T A E) (fuel : Nat) (p : Survey.Prompt W RL A E)
    (t : Option T) (v : Option (Validator A E)) (w : W) : Exit E × Option T × State W A :=
  -- err := Ask([]*Question{{Prompt: p, Validate: v}}, t)
  let r := Ask env fuel [{ Prompt := p, Validate := v }] t w
  match r.1 with
  | .ret _ (some e) => (.ret 36 (some e), r.2)
  | .ret _ none => (.ret 39 none, r.2)
  | .hang => (.hang, r.2)

/-- AskOne as the specification words it: `Ask` on the one-question list
`[{name: "", prompt, validate}]`. -/
def AskOneSpec (env : Env W RL T A E) (fuel : Nat) (p : Survey.Prompt W RL A E)
    (t : Option T) (v : Option (Validator A E)) (w : W) : Exit E × Option T × State W A :=
  Ask env fuel [{ Name := "", Prompt := p, Validate := v }] t w

/-- The write calls of a log, in order: name and value. -/
def writes : List (Event A) → List (String × A)
  | [] => []
  | .write n a :: l => (n, a) :: writes l
  | _ :: l => writes l

/-- The error lines printed, in order. -/
def errorLines : List (Event A) → List String
  | [] => []
  | .print o :: l => o :: errorLines l
  | _ :: l => errorLines l

/-! ## A concrete terminal, used to run the definitions on examples -/

/-- Tty is a scripted terminal: the lines the user is going to type and the
lines printed so far. -/
structure Tty where
  input : List String
  screen : List String
  deriving DecidableEq, Repr

/-- A record is a list of named answers; writing appends, and the field
called "locked" cannot be written. -/
abbrev Record := List (String × String)

/-- An environment over the scripted terminal in which the readline instance
is always available. -/
def demoEnv : Env Tty Unit Record String String where
  GetReadline := fun w => (((), none), w)
  RunTemplate := fun _ e => ("Sorry, your reply was invalid: " ++ e, none)
  Print := fun o w => ⟨w.input, w.screen ++ [o]⟩
  WriteAnswer := fun t n a =>
    if n = "locked" then (some "no such field", t) else (none, t ++ [(n, a)])
  errorsNew := fun m => m

/-- The same environment away from a terminal: `GetReadline` fails. -/
def noTtyEnv : Env Tty Unit Record String String where
  GetReadline := fun w => (((), some "not a terminal"), w)
  RunTemplate := demoEnv.RunTemplate
  Print := demoEnv.Print
  WriteAnswer := demoEnv.WriteAnswer
  errorsNew := demoEnv.errorsNew

/-- A prompt that reads the next scripted line and fails at the end of the
input. -/
def textPrompt : Survey.Prompt Tty Unit String String where
  Prompt := fun _ w =>
    match w.input with
    | [] => (("", some "EOF"), w)
    | x :: xs => ((x, none), ⟨xs, w.screen⟩)
  Cleanup := fun _ _ w => (none, w)

/-- The validator of the colour example: only "red" and "blue" pass. -/
def colorCheck : Validator String String := fun a =>
  if a = "red" ∨ a = "blue" then none else some "pick red or blue"

/-- The colour question of the examples. -/
def colorQ : Question Tty Unit String String :=
  { Name := "color", Prompt := textPrompt, Validate := some colorCheck }

/-- A question without validator. -/
def nameQ : Question Tty Unit String String :=
  { Name := "name", Prompt := textPrompt }

/-- A question whose field cannot be written. -/
def lockedQ : Question Tty Unit String String :=
  { Name := "locked", Prompt := textPrompt }

/-- A prompt that reads like `textPrompt` and whose cleanup hook always
returns an error. -/
def sloppyPrompt : Survey.Prompt Tty Unit String String where
  Prompt := textPrompt.Prompt
  Cleanup := fun _ _ w => (some "cleanup failed", w)

/-- A question without validator whose cleanup hook fails. -/
def sloppyQ : Question Tty Unit String String :=
  { Name := "name", Prompt := sloppyPrompt }

/-- The colour question asked for the field that cannot be written. -/
def lockedColorQ : Question Tty Unit String String :=
  { Name := "locked", Prompt := textPrompt, Validate := some colorCheck }

/-! ## How the collaborators answer: the premises of the statements -/

/-- Retries says that, starting with the answer `a` just read in world `w`, the
validator `v` rejects `k` answers in a row: each time the failure is rendered
without error, printed, and the prompt is read again without error. The run of
rejections produces the log entries `evs` and ends with the answer `a2`, not
yet validated, in world `w2`. -/
inductive Retries (env : Env W RL T A E) (q : Question W RL A E) (v : Validator A E) (rl : RL) :
    Nat → A → W → List (Event A) → A → W → Prop
  | zero (a : A) (w : W) : Retries env q v rl 0 a w [] a w
  | succ (k : Nat) (a : A) (w : W) (invalid : E) (out : String) (a1 : A) (w1 : W)
      (evs : List (Event A)) (a2 : A) (w2 : W) :
      v a = some invalid →
      env.RunTemplate ErrorTemplate invalid = (out, none) →
      q.Prompt.Prompt rl (env.Print out w) = ((a1, none), w1) →
      Retries env q v rl k a1 w1 evs a2 w2 →
      Retries env q v rl (k + 1) a w
        ([.validate q.Name a, .print out, .prompt q.Name] ++ evs) a2 w2

/-- Settles says that the validation step of question `q`, entered with the
answer `a` in world `w`, ends with the answer `a2` let through in world `w2`:
either the question has no validator (and nothing happens), or its validator
rejects `k` answers and accepts `a2`. The first index counts the validator
calls; `evs` are the log entries of the step. -/
inductive Settles (env : Env W RL T A E) (q : Question W RL A E) (rl : RL) :
    Nat → A → W → List (Event A) → A → W → Prop
  | unchecked (a : A) (w : W) : q.Validate = none → Settles env q rl 0 a w [] a w
  | checked (v : Validator A E) (k : Nat) (a : A) (w : W) (evs : List (Event A))
      (a2 : A) (w2 : W) :
      q.Validate = some v →
      Retries env q v rl k a w evs a2 w2 →
      v a2 = none →
      Settles env q rl (k + 1) a w (evs ++ [.validate q.Name a2]) a2 w2

/-- ReadFails says that a read of the prompt of question `q`, asked in world
`w`, fails with error `e`: either the first read (line 59) fails, or the first
read succeeds, the validator rejects `k` answers whose re-prompts succeed,
rejects one more, and the read that follows (line 76) fails. The first index
counts the validator calls, `line` is the line of the `return` that the
failure leads to, `evs` are the log entries and `wf` is the world left. -/
inductive ReadFails (env : Env W RL T A E) (q : Question W RL A E) (rl : RL) :
    Nat → W → Nat → E → List (Event A) → W → Prop
  | first (w : W) (a : A) (e : E) (wf : W) :
      q.Prompt.Prompt rl w = ((a, some e), wf) →
      ReadFails env q rl 0 w 62 e [.prompt q.Name] wf
  | again (v : Validator A E) (k : Nat) (w : W) (a0 : A) (wa : W) (evs : List (Event A))
      (ak : A) (wk : W) (invalid : E) (out : String) (a : A) (e : E) (wf : W) :
      q.Prompt.Prompt rl w = ((a0, none), wa) →
      q.Validate = some v →
      Retries env q v rl k a0 wa evs ak wk →
      v ak = some invalid →
      env.RunTemplate ErrorTemplate invalid = (out, none) →
      q.Prompt.Prompt rl (env.Print out wk) = ((a, some e), wf) →
      ReadFails env q rl (k + 1) w 79 e
        ([.prompt q.Name] ++ evs ++ [.validate q.Name ak, .print out, .prompt q.Name]) wf

/-- WrittenFor relates a question and a write made for it: the write is under
the name of the question and its value is one the validator of the question,
if there is one, accepts. -/
def WrittenFor (q : Question W RL A E) (wr : String × A) : Prop :=
  wr.1 = q.Name ∧ ∀ v, q.Validate = some v → v wr.2 = none

/-- The question `q` with the error returned by its cleanup hook replaced by
the one `c` chooses; what the hook does to the world is kept. -/
def cleanupReturning (c : Question W RL A E → RL → A → W → Option E)
    (q : Question W RL A E) : Question W RL A E :=
  { Name := q.Name
    Prompt :=
      { Prompt := q.Prompt.Prompt
        Cleanup := fun rl a w => (c q rl a w, (q.Prompt.Cleanup rl a w).2) }
    Validate := q.Validate }

/-- FirstTry says that every question of the list is settled at the first
attempt, from record `t` and world `w`: its prompt read succeeds with the
answer listed in `as`, its validator, if there is one, accepts that answer, and
the write of the answer succeeds. The last two indices are the record and the
world at the end. -/
inductive FirstTry (env : Env W RL T A E) (rl : RL) :
    List (Question W RL A E) → T → W → List A → T → W → Prop
  | nil (t : T) (w : W) : FirstTry env rl [] t w [] t w
  | cons (q : Question W RL A E) (qs : List (Question W RL A E)) (t : T) (w : W)
      (a : A) (w1 : W) (t1 : T) (as : List A) (t2 : T) (w2 : W) :
      q.Prompt.Prompt rl w = ((a, none), w1) →
      (∀ v, q.Validate = some v → v a = none) →
      env.WriteAnswer t q.Name a = (none, t1) →
      FirstTry env rl qs t1 (q.Prompt.Cleanup rl a w1).2 as t2 w2 →
      FirstTry env rl (q :: qs) t w (a :: as) t2 w2

end Survey

/-! ## Lemmas on the log -/

namespace Survey

variable {W RL T A E : Type}

theorem writes_append (l1 l2 : List (Event A)) :
    writes (l1 ++ l2) = writes l1 ++ writes l2 := by
  induction l1 with
  | nil => rfl
  | cons e l ih => cases e <;> simp [writes, ih]

theorem errorLines_append (l1 l2 : List (Event A)) :
    errorLines (l1 ++ l2) = errorLines l1 ++ errorLines l2 := by
  induction l1 with
  | nil => rfl
  | cons e l ih => cases e <;> simp [errorLines, ih]

theorem retries_errorLines_length {env : Env W RL T A E} {q : Question W RL A E}
    {v : Validator A E} {rl : RL} {k : Nat} {a : A} {w : W} {evs : List (Event A)}
    {a2 : A} {w2 : W} (h : Retries env q v rl k a w evs a2 w2) :
    (errorLines evs).length = k := by
  induction h with
  | zero a w => rfl
  | succ k a w invalid out a1 w1 evs a2 w2 _ _ _ _ ih => simp [errorLines, ih]

theorem retries_writes_nil {env : Env W RL T A E} {q : Question W RL A E}
    {v : Validator A E} {rl : RL} {k : Nat} {a : A} {w : W} {evs : List (Event A)}
    {a2 : A} {w2 : W} (h : Retries env q v rl k a w evs a2 w2) :
    writes evs = [] := by
  induction h with
  | zero a w => rfl
  | succ k a w invalid out a1 w1 evs a2 w2 _ _ _ _ ih => simp [writes, ih]

/-! ## The re-prompt loop -/

/-- The loop follows a run of `k` rejections, spending `k` units of fuel. -/
theorem validateLoop_retries {env : Env W RL T A E} {q : Question W RL A E}
    {v : Validator A E} {rl : RL} {k : Nat} {a : A} {w : W} {evs : List (Event A)}
    {a2 : A} {w2 : W} (h : Retries env q v rl k a w evs a2 w2) :
    ∀ (fuel : Nat) (log : List (Event A)),
      validateLoop env q v rl (fuel + k) a ⟨w, log⟩
        = validateLoop env q v rl fuel a2 ⟨w2, log ++ evs⟩ := by
  induction h with
  | zero a w => intro fuel log; simp
  | succ k a w invalid out a1 w1 evs a2 w2 hv hr hp _ ih =>
    intro fuel log
    rw [← Nat.add_assoc]
    simp only [validateLoop, hv, hr, hp]
    rw [ih]
    simp [List.append_assoc]

/-- What the loop can do, for any fuel: it performs no write, an answer it
lets through is one the validator accepted, and the only exits from inside it
are the returns of lines 71 and 79, each with an error. -/
theorem validateLoop_inv (env : Env W RL T A E) (q : Question W RL A E) (v : Validator A E)
    (rl : RL) : ∀ (fuel : Nat) (a : A) (s : State W A),
      writes (validateLoop env q v rl fuel a s).2.log = writes s.log ∧
      ((∃ a2, (validateLoop env q v rl fuel a s).1 = .ok a2 ∧ v a2 = none) ∨
       (validateLoop env q v rl fuel a s).1 = .error .hang ∨
       (∃ e, (validateLoop env q v rl fuel a s).1 = .error (.ret 71 (some e))) ∨
       (∃ e, (validateLoop env q v rl fuel a s).1 = .error (.ret 79 (some e)))) := by
  intro fuel
  induction fuel with
  | zero => intro a s; simp [validateLoop]
  | succ n ih =>
    intro a s
    unfold validateLoop
    cases hv : v a with
    | none => simp [writes_append, writes, hv]
    | some invalid =>
      cases hr : (env.RunTemplate ErrorTemplate invalid).2 with
      | some e => simp [hr, writes_append, writes]
      | none =>
        cases hp : (q.Prompt.Prompt rl
            (env.Print (env.RunTemplate ErrorTemplate invalid).1 s.world)).1.2 with
        | some e => simp [hr, hp, writes_append, writes]
        | none =>
          have h := ih
            (q.Prompt.Prompt rl (env.Print (env.RunTemplate ErrorTemplate invalid).1 s.world)).1.1
            ⟨(q.Prompt.Prompt rl (env.Print (env.RunTemplate ErrorTemplate invalid).1 s.world)).2,
              s.log ++ [.validate q.Name a] ++ [.print (env.RunTemplate ErrorTemplate invalid).1]
                ++ [.prompt q.Name]⟩
          simpa [hr, hp, writes_append, writes] using h

/-! ## The loop body -/

/-- What one pass through the loop body can do, for any fuel. Either it leaves
early, by one of the returns of lines 62, 71 and 79 or by running out of fuel,
and then it has written nothing; or it reaches line 94 and calls
`WriteAnswer` exactly once, under the name of the question and with a value
that the validator, if there is one, accepted. The return of line 90 is not
among the possibilities. -/
theorem askQuestion_inv (env : Env W RL T A E) (fuel : Nat) (rl : RL) (q : Question W RL A E)
    (t : T) (s : State W A) :
    ((∃ x, (askQuestion env fuel rl q t s).1 = some x ∧
        (x = .hang ∨ (∃ e, x = .ret 62 (some e)) ∨ (∃ e, x = .ret 71 (some e)) ∨
          (∃ e, x = .ret 79 (some e)))) ∧
      writes (askQuestion env fuel rl q t s).2.2.log = writes s.log) ∨
    (((askQuestion env fuel rl q t s).1 = none ∨
        ∃ e, (askQuestion env fuel rl q t s).1 = some (.ret 97 (some e))) ∧
      ∃ a, writes (askQuestion env fuel rl q t s).2.2.log = writes s.log ++ [(q.Name, a)] ∧
        ∀ v, q.Validate = some v → v a = none) := by
  unfold askQuestion
  cases hp : (q.Prompt.Prompt rl s.world).1.2 with
  | some e => simp [hp, writes_append, writes]
  | none =>
    cases hq : q.Validate with
    | none =>
      cases hw : (env.WriteAnswer t q.Name (q.Prompt.Prompt rl s.world).1.1).1 with
      | none => simp [hp, hq, hw, writes_append, writes]
      | some e => simp [hp, hq, hw, writes_append, writes]
    | some v =>
      have h := validateLoop_inv env q v rl fuel (q.Prompt.Prompt rl s.world).1.1
        ⟨(q.Prompt.Prompt rl s.world).2, s.log ++ [.prompt q.Name]⟩
      rcases hl : validateLoop env q v rl fuel (q.Prompt.Prompt rl s.world).1.1
        ⟨(q.Prompt.Prompt rl s.world).2, s.log ++ [.prompt q.Name]⟩ with ⟨r, s2⟩
      rw [hl] at h
      cases r with
      | error x =>
        have h2 : writes s2.log = writes s.log ∧
            (x = Exit.hang ∨ (∃ e, x = Exit.ret 71 (some e)) ∨ ∃ e, x = Exit.ret 79 (some e)) := by
          simpa [writes_append, writes] using h
        simp only [hp, hq, hl]
        left
        refine ⟨⟨x, rfl, ?_⟩, h2.1⟩
        rcases h2.2 with h3 | h3 | h3
        · exact Or.inl h3
        · exact Or.inr (Or.inr (Or.inl h3))
        · exact Or.inr (Or.inr (Or.inr h3))
      | ok a =>
        have h2 : writes s2.log = writes s.log ∧ v a = none := by
          simpa [writes_append, writes] using h
        cases hw : (env.WriteAnswer t q.Name a).1 with
        | none =>
          simp only [hp, hq, hl, hw]
          right
          exact ⟨Or.inl trivial, a, by simp [writes_append, writes, h2.1], by simpa using h2.2⟩
        | some e =>
          simp only [hp, hq, hl, hw]
          right
          exact ⟨Or.inr ⟨e, rfl⟩, a, by simp [writes_append, writes, h2.1], by simpa using h2.2⟩

/-- The validation step, run with enough fuel, follows `Settles`. -/
theorem validate_settles {env : Env W RL T A E} {q : Question W RL A E} {rl : RL}
    {n : Nat} {a : A} {w : W} {evs : List (Event A)} {a2 : A} {w2 : W}
    (h : Settles env q rl n a w evs a2 w2) (fuel : Nat) (hf : n ≤ fuel)
    (log : List (Event A)) :
    (match q.Validate with
      | none => ((.ok a, ⟨w, log⟩) : Except (Exit E) A × State W A)
      | some v => validateLoop env q v rl fuel a ⟨w, log⟩)
      = (.ok a2, ⟨w2, log ++ evs⟩) := by
  cases h with
  | unchecked a w hq => simp [hq]
  | checked v k a w evs a2 w2 hq hr hacc =>
    obtain ⟨m, rfl⟩ := Nat.exists_eq_add_of_le hf
    have e1 : k + 1 + m = (m + 1) + k := by omega
    simp only [hq, e1]
    rw [validateLoop_retries hr (m + 1) log]
    simp [validateLoop, hacc, List.append_assoc]

/-- The loop body when the first read succeeds and the validation step ends
well: the cleanup hook is called, then `WriteAnswer`, whose error decides
between the return of line 97 and the next iteration. -/
theorem askQuestion_settles {env : Env W RL T A E} {q : Question W RL A E} {rl : RL}
    {n : Nat} {a : A} {w1 : W} {evs : List (Event A)} {a2 : A} {w2 : W}
    (fuel : Nat) (t : T) (s : State W A)
    (hp : q.Prompt.Prompt rl s.world = ((a, none), w1))
    (h : Settles env q rl n a w1 evs a2 w2) (hf : n ≤ fuel) :
    askQuestion env fuel rl q t s =
      ((match (env.WriteAnswer t q.Name a2).1 with
          | some e => some (.ret 97 (some e))
          | none => none),
        (env.WriteAnswer t q.Name a2).2,
        ⟨(q.Prompt.Cleanup rl a2 w2).2,
          s.log ++ [.prompt q.Name] ++ evs ++ [.cleanup q.Name a2, .write q.Name a2]⟩) := by
  have hv := validate_settles h fuel hf (s.log ++ [.prompt q.Name])
  unfold askQuestion
  simp only [hp]
  rw [hv]
  cases hw : (env.WriteAnswer t q.Name a2).1 <;> simp [hw, List.append_assoc]

/-- The loop body when a read of the prompt fails: the body returns the error
of the read, at the line that follows the read, and writes nothing. -/
theorem askQuestion_readFails {env : Env W RL T A E} {q : Question W RL A E} {rl : RL}
    {n line : Nat} {e : E} {evs : List (Event A)} {wf : W}
    (fuel : Nat) (t : T) (s : State W A)
    (h : ReadFails env q rl n s.world line e evs wf) (hf : n ≤ fuel) :
    askQuestion env fuel rl q t s = (some (.ret line (some e)), t, ⟨wf, s.log ++ evs⟩) := by
  cases h with
  | first w a e wf hp =>
    unfold askQuestion
    simp [hp]
  | again v k w a0 wa evs ak wk invalid out a e wf hp hq hr hrej hout hp2 =>
    obtain ⟨m, rfl⟩ := Nat.exists_eq_add_of_le hf
    have e1 : k + 1 + m = (m + 1) + k := by omega
    unfold askQuestion
    simp only [hp, hq, e1]
    rw [validateLoop_retries hr (m + 1) (s.log ++ [Event.prompt q.Name])]
    simp [validateLoop, hrej, hout, hp2, List.append_assoc]

theorem readFails_writes_nil {env : Env W RL T A E} {q : Question W RL A E} {rl : RL}
    {n line : Nat} {w : W} {e : E} {evs : List (Event A)} {wf : W}
    (h : ReadFails env q rl n w line e evs wf) : writes evs = [] := by
  cases h with
  | first w a e wf hp => rfl
  | again v k w a0 wa evs ak wk invalid out a e wf hp hq hr hrej hout hp2 =>
    simp [writes_append, writes, retries_writes_nil hr]

/-! ## The loop over the questions -/

/-- When the loop over `pre` runs to its end, the loop over `pre ++ post` goes
on with `post` from where `pre` ended. -/
theorem askLoop_append_ok (env : Env W RL T A E) (fuel : Nat) (rl : RL)
    (post : List (Question W RL A E)) :
    ∀ (pre : List (Question W RL A E)) (t : T) (s : State W A) (t1 : T) (s1 : State W A),
      askLoop env fuel rl pre t s = (.ret 101 none, t1, s1) →
      askLoop env fuel rl (pre ++ post) t s = askLoop env fuel rl post t1 s1 := by
  intro pre
  induction pre with
  | nil =>
    intro t s t1 s1 h
    simp only [askLoop, Prod.mk.injEq] at h
    obtain ⟨-, rfl, rfl⟩ := h
    rfl
  | cons q qs ih =>
    intro t s t1 s1 h
    have hi := askQuestion_inv env fuel rl q t s
    rcases hq : askQuestion env fuel rl q t s with ⟨x, t2, s2⟩
    rw [hq] at hi
    simp only [List.cons_append, askLoop, hq] at h ⊢
    cases x with
    | none => exact ih t2 s2 t1 s1 h
    | some x =>
      exfalso
      simp only [Prod.mk.injEq] at h
      obtain ⟨rfl, -, -⟩ := h
      simp at hi

/-- A run of `Ask` that reaches line 101 acquired the readline instance and
ran the loop to its end. -/
theorem Ask_ok_loop {env : Env W RL T A E} {fuel : Nat} {qs : List (Question W RL A E)}
    {t : T} {w0 : W} {t1 : T} {s1 : State W A}
    (h : Ask env fuel qs (some t) w0 = (.ret 101 none, some t1, s1)) :
    (env.GetReadline w0).1.2 = none ∧
      askLoop env fuel (env.GetReadline w0).1.1 qs t ⟨(env.GetReadline w0).2, [.acquire]⟩
        = (.ret 101 none, t1, s1) := by
  unfold Ask at h
  cases hg : (env.GetReadline w0).1.2 with
  | some e => simp [hg] at h
  | none =>
    simp only [hg, Prod.mk.injEq, Option.some.injEq] at h
    refine ⟨rfl, ?_⟩
    obtain ⟨h1, h2, h3⟩ := h
    rw [← h1, ← h2, ← h3]

/-- The run of `Ask` on `pre ++ post` when the run on `pre` reaches line 101:
the loop goes on with `post`. -/
theorem Ask_append_ok {env : Env W RL T A E} {fuel : Nat} {pre : List (Question W RL A E)}
    {t : T} {w0 : W} {t1 : T} {s1 : State W A}
    (h : Ask env fuel pre (some t) w0 = (.ret 101 none, some t1, s1))
    (post : List (Question W RL A E)) :
    Ask env fuel (pre ++ post) (some t) w0 =
      ((askLoop env fuel (env.GetReadline w0).1.1 post t1 s1).1,
        some (askLoop env fuel (env.GetReadline w0).1.1 post t1 s1).2.1,
        (askLoop env fuel (env.GetReadline w0).1.1 post t1 s1).2.2) := by
  obtain ⟨hg, hl⟩ := Ask_ok_loop h
  unfold Ask
  simp only [hg]
  rw [askLoop_append_ok env fuel _ post pre t _ t1 s1 hl]

/-- The writes of the loop, for any fuel: they answer, one for one and in
order, the first `n` questions of the list, and `n` is the whole list when the
loop runs to its end. -/
theorem askLoop_writes (env : Env W RL T A E) (fuel : Nat) (rl : RL) :
    ∀ (qs : List (Question W RL A E)) (t : T) (s : State W A),
      ∃ n ws, n ≤ qs.length ∧
        writes (askLoop env fuel rl qs t s).2.2.log = writes s.log ++ ws ∧
        List.Forall₂ WrittenFor (qs.take n) ws ∧
        ((askLoop env fuel rl qs t s).1 = .ret 101 none → n = qs.length) := by
  intro qs
  induction qs with
  | nil => intro t s; exact ⟨0, [], by simp [askLoop]⟩
  | cons q qs ih =>
    intro t s
    have hi := askQuestion_inv env fuel rl q t s
    rcases hq : askQuestion env fuel rl q t s with ⟨x, t2, s2⟩
    rw [hq] at hi
    simp only [askLoop, hq]
    rcases hi with ⟨⟨x1, hx, hx1⟩, hw⟩ | ⟨hx, a, hw, hv⟩
    · simp only at hx hw
      subst hx
      refine ⟨0, [], Nat.zero_le _, by simp [hw], by simp, ?_⟩
      intro h
      simp only at h
      subst h
      simp at hx1
    · simp only at hx hw
      rcases hx with hx | ⟨e, hx⟩
      · subst hx
        obtain ⟨n, ws, hn, hws, hf, hend⟩ := ih t2 s2
        refine ⟨n + 1, (q.Name, a) :: ws, by simpa using hn, ?_, ?_, ?_⟩
        · simp [hws, hw]
        · simp only [List.take_succ_cons]
          exact .cons ⟨rfl, hv⟩ hf
        · intro h
          simpa using hend h
      · subst hx
        have hwf : WrittenFor q (q.Name, a) := ⟨rfl, hv⟩
        exact ⟨1, [(q.Name, a)], by simp, by simp [hw],
          by simp only [List.take_succ_cons, List.take_zero]; exact .cons hwf .nil, by simp⟩

/-- The writes of `Ask`, for any fuel, target and world. -/
theorem Ask_writes (env : Env W RL T A E) (fuel : Nat) (qs : List (Question W RL A E))
    (t : Option T) (w : W) :
    ∃ n, n ≤ qs.length ∧
      List.Forall₂ WrittenFor (qs.take n) (writes (Ask env fuel qs t w).2.2.log) := by
  unfold Ask
  cases hg : (env.GetReadline w).1.2 with
  | some e => exact ⟨0, Nat.zero_le _, by simp [hg, writes]⟩
  | none =>
    cases t with
    | none => exact ⟨0, Nat.zero_le _, by simp [hg, writes]⟩
    | some t0 =>
      obtain ⟨n, ws, hn, hws, hf, -⟩ :=
        askLoop_writes env fuel (env.GetReadline w).1.1 qs t0 ⟨(env.GetReadline w).2, [.acquire]⟩
      refine ⟨n, hn, ?_⟩
      simp only [hg, hws]
      simpa [writes] using hf

/-- The exits of the loop, for any fuel: the end of the loop (line 101), the
fuel running out, or one of the returns of lines 62, 71, 79 and 97 with an error. -/
theorem askLoop_exit (env : Env W RL T A E) (fuel : Nat) (rl : RL) :
    ∀ (qs : List (Question W RL A E)) (t : T) (s : State W A),
      (askLoop env fuel rl qs t s).1 = .ret 101 none ∨
      (askLoop env fuel rl qs t s).1 = .hang ∨
      ∃ e, (askLoop env fuel rl qs t s).1 = .ret 62 (some e) ∨
        (askLoop env fuel rl qs t s).1 = .ret 71 (some e) ∨
        (askLoop env fuel rl qs t s).1 = .ret 79 (some e) ∨
        (askLoop env fuel rl qs t s).1 = .ret 97 (some e) := by
  intro qs
  induction qs with
  | nil => intro t s; simp [askLoop]
  | cons q qs ih =>
    intro t s
    have hi := askQuestion_inv env fuel rl q t s
    rcases hq : askQuestion env fuel rl q t s with ⟨x, t2, s2⟩
    rw [hq] at hi
    simp only [askLoop, hq]
    rcases hi with ⟨⟨x1, hx, hx1⟩, -⟩ | ⟨hx, -⟩
    · simp only at hx
      subst hx
      rcases hx1 with h | ⟨e, h⟩ | ⟨e, h⟩ | ⟨e, h⟩ <;> subst h <;> simp
    · simp only at hx
      rcases hx with hx | ⟨e, hx⟩
      · subst hx
        exact ih t2 s2
      · subst hx
        simp

/-- The re-prompt loop does not look at the cleanup hook. -/
theorem validateLoop_cleanupReturning (env : Env W RL T A E)
    (c : Question W RL A E → RL → A → W → Option E) (q : Question W RL A E)
    (v : Validator A E) (rl : RL) :
    ∀ (fuel : Nat) (a : A) (s : State W A),
      validateLoop env (cleanupReturning c q) v rl fuel a s = validateLoop env q v rl fuel a s := by
  intro fuel
  induction fuel with
  | zero => intro a s; rfl
  | succ n ih =>
    intro a s
    simp only [validateLoop, cleanupReturning] at ih ⊢
    cases v a with
    | none => rfl
    | some invalid =>
      simp only
      cases (env.RunTemplate ErrorTemplate invalid).2 with
      | some e => rfl
      | none =>
        simp only
        cases (q.Prompt.Prompt rl (env.Print (env.RunTemplate ErrorTemplate invalid).1 s.world)).1.2 with
        | some e => rfl
        | none => exact ih _ _

/-- The loop body does not look at the error its cleanup hook returns. -/
theorem askQuestion_cleanupReturning (env : Env W RL T A E)
    (c : Question W RL A E → RL → A → W → Option E) (fuel : Nat) (rl : RL)
    (q : Question W RL A E) (t : T) (s : State W A) :
    askQuestion env fuel rl (cleanupReturning c q) t s = askQuestion env fuel rl q t s := by
  unfold askQuestion
  cases hq : q.Validate with
  | none => simp [cleanupReturning, hq]
  | some v =>
    have h := validateLoop_cleanupReturning env c q v rl fuel
    simp only [cleanupReturning, hq] at h ⊢
    simp only [h]

theorem askLoop_cleanupReturning (env : Env W RL T A E)
    (c : Question W RL A E → RL → A → W → Option E) (fuel : Nat) (rl : RL) :
    ∀ (qs : List (Question W RL A E)) (t : T) (s : State W A),
      askLoop env fuel rl (qs.map (cleanupReturning c)) t s = askLoop env fuel rl qs t s := by
  intro qs
  induction qs with
  | nil => intro t s; rfl
  | cons q qs ih =>
    intro t s
    simp only [List.map_cons, askLoop, askQuestion_cleanupReturning]
    rcases askQuestion env fuel rl q t s with ⟨x, t2, s2⟩
    cases x with
    | none => exact ih t2 s2
    | some x => rfl

theorem firstTry_length {env : Env W RL T A E} {rl : RL} {qs : List (Question W RL A E)}
    {t : T} {w : W} {as : List A} {t2 : T} {w2 : W}
    (h : FirstTry env rl qs t w as t2 w2) : as.length = qs.length := by
  induction h with
  | nil t w => rfl
  | cons q qs t w a w1 t1 as t2 w2 _ _ _ _ ih => simp [ih]

/-- The loop over questions that are all settled at the first attempt runs to
its end, writes each answer under the name of its question, in order, and
prints no error line. One unit of fuel is enough. -/
theorem askLoop_firstTry {env : Env W RL T A E} {rl : RL} {qs : List (Question W RL A E)}
    {t : T} {w : W} {as : List A} {t2 : T} {w2 : W}
    (h : FirstTry env rl qs t w as t2 w2) (fuel : Nat) (hf : 0 < fuel) :
    ∀ log : List (Event A), ∃ log2,
      askLoop env fuel rl qs t ⟨w, log⟩ = (.ret 101 none, t2, ⟨w2, log2⟩) ∧
      writes log2 = writes log ++ (qs.map Question.Name).zip as ∧
      errorLines log2 = errorLines log := by
  induction h with
  | nil t w => intro log; exact ⟨log, rfl, by simp, rfl⟩
  | cons q qs t w a w1 t1 as t2 w2 hp hv hw _ ih =>
    intro log
    have hs : ∃ n evs, n ≤ fuel ∧ Settles env q rl n a w1 evs a w1 ∧
        writes evs = [] ∧ errorLines evs = [] := by
      cases hq : q.Validate with
      | none => exact ⟨0, [], Nat.zero_le _, Settles.unchecked a w1 hq, rfl, rfl⟩
      | some v =>
        exact ⟨1, [] ++ [Event.validate q.Name a], hf,
          Settles.checked v 0 a w1 [] a w1 hq (Retries.zero a w1) (hv v hq),
          by simp [writes], by simp [errorLines]⟩
    obtain ⟨n, evs, hn, hs, hwr, hel⟩ := hs
    have hq := askQuestion_settles fuel t ⟨w, log⟩ hp hs hn
    obtain ⟨log2, h1, h2, h3⟩ :=
      ih (log ++ [.prompt q.Name] ++ evs ++ [.cleanup q.Name a, .write q.Name a])
    refine ⟨log2, ?_, ?_, ?_⟩
    · simp only [askLoop, hq, hw]
      exact h1
    · simp [h2, writes_append, writes, hwr]
    · simp [h3, errorLines_append, errorLines, hel]

/-! ## The log only grows -/

theorem validateLoop_log (env : Env W RL T A E) (q : Question W RL A E) (v : Validator A E)
    (rl : RL) : ∀ (fuel : Nat) (a : A) (s : State W A),
      ∃ more, (validateLoop env q v rl fuel a s).2.log = s.log ++ more := by
  intro fuel
  induction fuel with
  | zero => intro a s; exact ⟨[], by simp [validateLoop]⟩
  | succ n ih =>
    intro a s
    unfold validateLoop
    cases hv : v a with
    | none => exact ⟨[.validate q.Name a], rfl⟩
    | some invalid =>
      cases hr : (env.RunTemplate ErrorTemplate invalid).2 with
      | some e => exact ⟨[.validate q.Name a], by simp [hr]⟩
      | none =>
        cases hp : (q.Prompt.Prompt rl
            (env.Print (env.RunTemplate ErrorTemplate invalid).1 s.world)).1.2 with
        | some e =>
          exact ⟨[.validate q.Name a, .print (env.RunTemplate ErrorTemplate invalid).1,
            .prompt q.Name], by simp [hr, hp]⟩
        | none =>
          obtain ⟨more, hm⟩ := ih
            (q.Prompt.Prompt rl (env.Print (env.RunTemplate ErrorTemplate invalid).1 s.world)).1.1
            ⟨(q.Prompt.Prompt rl (env.Print (env.RunTemplate ErrorTemplate invalid).1 s.world)).2,
              s.log ++ [.validate q.Name a] ++ [.print (env.RunTemplate ErrorTemplate invalid).1]
                ++ [.prompt q.Name]⟩
          refine ⟨[.validate q.Name a, .print (env.RunTemplate ErrorTemplate invalid).1,
            .prompt q.Name] ++ more, ?_⟩
          simp only [hr, hp]
          rw [hm]
          simp [List.append_assoc]

/-- The loop body starts by reading the prompt of its question. -/
theorem askQuestion_log (env : Env W RL T A E) (fuel : Nat) (rl : RL) (q : Question W RL A E)
    (t : T) (s : State W A) :
    ∃ more, (askQuestion env fuel rl q t s).2.2.log = s.log ++ Event.prompt q.Name :: more := by
  unfold askQuestion
  cases hp : (q.Prompt.Prompt rl s.world).1.2 with
  | some e => exact ⟨[], by simp [hp]⟩
  | none =>
    cases hq : q.Validate with
    | none =>
      cases hw : (env.WriteAnswer t q.Name (q.Prompt.Prompt rl s.world).1.1).1 <;>
        exact ⟨[.cleanup q.Name (q.Prompt.Prompt rl s.world).1.1,
          .write q.Name (q.Prompt.Prompt rl s.world).1.1], by simp [hp, hq, hw]⟩
    | some v =>
      obtain ⟨more, hm⟩ := validateLoop_log env q v rl fuel (q.Prompt.Prompt rl s.world).1.1
        ⟨(q.Prompt.Prompt rl s.world).2, s.log ++ [.prompt q.Name]⟩
      rcases hl : validateLoop env q v rl fuel (q.Prompt.Prompt rl s.world).1.1
        ⟨(q.Prompt.Prompt rl s.world).2, s.log ++ [.prompt q.Name]⟩ with ⟨r, s2⟩
      rw [hl] at hm
      simp only at hm
      cases r with
      | error x => exact ⟨more, by simp [hp, hq, hl, hm]⟩
      | ok a =>
        cases hw : (env.WriteAnswer t q.Name a).1 <;>
          exact ⟨more ++ [.cleanup q.Name a, .write q.Name a], by simp [hp, hq, hl, hm, hw]⟩

/-- The loop starts by reading the prompt of the first question, if there is
one, and never takes anything back from the log. -/
theorem askLoop_log (env : Env W RL T A E) (fuel : Nat) (rl : RL) :
    ∀ (qs : List (Question W RL A E)) (t : T) (s : State W A),
      ∃ more, (askLoop env fuel rl qs t s).2.2.log
        = s.log ++ (qs.head?.map (fun q2 => Event.prompt q2.Name)).toList ++ more := by
  intro qs
  induction qs with
  | nil => intro t s; exact ⟨[], by simp [askLoop]⟩
  | cons q qs ih =>
    intro t s
    obtain ⟨m1, h1⟩ := askQuestion_log env fuel rl q t s
    rcases hq : askQuestion env fuel rl q t s with ⟨x, t2, s2⟩
    rw [hq] at h1
    simp only at h1
    simp only [askLoop, hq]
    cases x with
    | some x => exact ⟨m1, by simp [h1]⟩
    | none =>
      obtain ⟨m2, h2⟩ := ih t2 s2
      exact ⟨m1 ++ (qs.head?.map (fun q2 => Event.prompt q2.Name)).toList ++ m2,
        by simp [h2, h1, List.append_assoc]⟩

/-! ## Fuel -/

theorem validateLoop_fuel_succ (env : Env W RL T A E) (q : Question W RL A E)
    (v : Validator A E) (rl : RL) :
    ∀ (fuel : Nat) (a : A) (s : State W A),
      (validateLoop env q v rl fuel a s).1 ≠ .error .hang →
      validateLoop env q v rl (fuel + 1) a s = validateLoop env q v rl fuel a s := by
  intro fuel
  induction fuel with
  | zero => intro a s h; simp [validateLoop] at h
  | succ n ih =>
    intro a s h
    rw [validateLoop] at h ⊢
    conv => rhs; rw [validateLoop]
    cases hv : v a with
    | none => rfl
    | some invalid =>
      simp only [hv] at h ⊢
      cases hr : (env.RunTemplate ErrorTemplate invalid).2 with
      | some e => rfl
      | none =>
        simp only [hr] at h ⊢
        cases hp : (q.Prompt.Prompt rl
            (env.Print (env.RunTemplate ErrorTemplate invalid).1 s.world)).1.2 with
        | some e => rfl
        | none =>
          simp only [hp] at h ⊢
          exact ih _ _ h

theorem askQuestion_fuel_succ (env : Env W RL T A E) (fuel : Nat) (rl : RL)
    (q : Question W RL A E) (t : T) (s : State W A)
    (h : (askQuestion env fuel rl q t s).1 ≠ some .hang) :
    askQuestion env (fuel + 1) rl q t s = askQuestion env fuel rl q t s := by
  unfold askQuestion at h ⊢
  cases hp : (q.Prompt.Prompt rl s.world).1.2 with
  | some e => simp [hp]
  | none =>
    cases hq : q.Validate with
    | none => simp [hp, hq]
    | some v =>
      simp only [hp, hq] at h ⊢
      have hm := validateLoop_fuel_succ env q v rl fuel (q.Prompt.Prompt rl s.world).1.1
        ⟨(q.Prompt.Prompt rl s.world).2, s.log ++ [.prompt q.Name]⟩
      rcases hl : validateLoop env q v rl fuel (q.Prompt.Prompt rl s.world).1.1
        ⟨(q.Prompt.Prompt rl s.world).2, s.log ++ [.prompt q.Name]⟩ with ⟨r, s2⟩
      rw [hl] at hm h
      have hne : r ≠ .error .hang := by
        rintro rfl
        simp at h
      rw [hm (by simpa using hne), hl]

theorem askLoop_fuel_succ (env : Env W RL T A E) (fuel : Nat) (rl : RL) :
    ∀ (qs : List (Question W RL A E)) (t : T) (s : State W A),
      (askLoop env fuel rl qs t s).1 ≠ .hang →
      askLoop env (fuel + 1) rl qs t s = askLoop env fuel rl qs t s := by
  intro qs
  induction qs with
  | nil => intro t s _; rfl
  | cons q qs ih =>
    intro t s h
    have hq := askQuestion_fuel_succ env fuel rl q t s
    simp only [askLoop] at h ⊢
    rcases hl : askQuestion env fuel rl q t s with ⟨x, t2, s2⟩
    rw [hl] at hq h
    cases x with
    | none =>
      rw [hq (by simp)]
      exact ih t2 s2 h
    | some x =>
      rw [hq (by simpa using h)]

/-- Fuel is only a bound: a run that does not end for lack of fuel is the same
with more fuel. -/
theorem Ask_fuel_succ (env : Env W RL T A E) (fuel : Nat) (qs : List (Question W RL A E))
    (t : Option T) (w : W) (h : (Ask env fuel qs t w).1 ≠ .hang) :
    Ask env (fuel + 1) qs t w = Ask env fuel qs t w := by
  unfold Ask at h ⊢
  cases hg : (env.GetReadline w).1.2 with
  | some e => simp [hg]
  | none =>
    cases t with
    | none => simp [hg]
    | some t0 =>
      simp only [hg] at h ⊢
      rw [askLoop_fuel_succ env fuel _ qs t0 _ h]

/-! ## The claims -/

/-- C1: a question whose validator rejects the first `k` answers returned by
its prompt and accepts the next one, with every prompt read, every rendering of
an error line and the write succeeding. The question stands at any place in the
list: `pre` are the questions before it, and the run on them reaches the end
in state `s1`. Then `Ask` returns no error; what it adds to the log for this
question ends with the write of the accepted answer `ak` under the name of the
question, and before that write it holds exactly `k` printed error lines and no
write. Fuel `k + 1` is enough. -/
theorem ask_rejected_k_times_then_written (env : Env W RL T A E) (fuel : Nat)
    (pre : List (Question W RL A E)) (q : Question W RL A E) (v : Validator A E) (rl : RL)
    (t t1 t2 : T) (w0 : W) (s1 : State W A) (a0 ak : A) (wa wk : W) (k : Nat)
    (evs : List (Event A))
    (hrl : (env.GetReadline w0).1.1 = rl)
    (hpre : Ask env fuel pre (some t) w0 = (.ret 101 none, some t1, s1))
    (hv : q.Validate = some v)
    (hp : q.Prompt.Prompt rl s1.world = ((a0, none), wa))
    (hr : Retries env q v rl k a0 wa evs ak wk)
    (hacc : v ak = none)
    (hw : env.WriteAnswer t1 q.Name ak = (none, t2))
    (hfuel : k < fuel) :
    Ask env fuel (pre ++ [q]) (some t) w0 =
      (.ret 101 none, some t2,
        ⟨(q.Prompt.Cleanup rl ak wk).2,
          s1.log ++ ([.prompt q.Name] ++ evs ++ [.validate q.Name ak, .cleanup q.Name ak])
            ++ [.write q.Name ak]⟩) ∧
    (errorLines ([.prompt q.Name] ++ evs
        ++ [.validate q.Name ak, .cleanup q.Name ak])).length = k ∧
    writes ([.prompt q.Name] ++ evs ++ [.validate q.Name ak, .cleanup q.Name ak]) = [] := by
  subst hrl
  refine ⟨?_, ?_, ?_⟩
  · rw [Ask_append_ok hpre [q]]
    have hs := askQuestion_settles fuel t1 s1 hp (Settles.checked v k a0 wa evs ak wk hv hr hacc)
      hfuel
    simp [askLoop, hs, hw, List.append_assoc]
  · simp [errorLines_append, errorLines, retries_errorLines_length hr]
  · simp [writes_append, writes, retries_writes_nil hr]

/-- C1 on the colour example, asked after a first question: "green" is
rejected once, "blue" is accepted and written under "color". -/
theorem ask_rejected_k_times_then_written_witness :
    Ask demoEnv 2 ([nameQ] ++ [colorQ]) (some []) ⟨["Ann", "green", "blue"], []⟩ =
      (.ret 101 none, some [("name", "Ann"), ("color", "blue")],
        ⟨⟨[], ["Sorry, your reply was invalid: pick red or blue"]⟩,
          [.acquire, .prompt "name", .cleanup "name" "Ann", .write "name" "Ann",
            .prompt "color", .validate "color" "green",
            .print "Sorry, your reply was invalid: pick red or blue",
            .prompt "color", .validate "color" "blue", .cleanup "color" "blue",
            .write "color" "blue"]⟩) :=
  (ask_rejected_k_times_then_written demoEnv 2 [nameQ] colorQ colorCheck ()
    [] [("name", "Ann")] [("name", "Ann"), ("color", "blue")]
    ⟨["Ann", "green", "blue"], []⟩
    ⟨⟨["green", "blue"], []⟩,
      [.acquire, .prompt "name", .cleanup "name" "Ann", .write "name" "Ann"]⟩
    "green" "blue" ⟨["blue"], []⟩
    ⟨[], ["Sorry, your reply was invalid: pick red or blue"]⟩ 1
    [.validate "color" "green", .print "Sorry, your reply was invalid: pick red or blue",
      .prompt "color"]
    rfl rfl rfl rfl
    (Retries.succ 0 "green" (Tty.mk ["blue"] []) "pick red or blue"
      "Sorry, your reply was invalid: pick red or blue" "blue"
      (Tty.mk [] ["Sorry, your reply was invalid: pick red or blue"]) [] "blue"
      (Tty.mk [] ["Sorry, your reply was invalid: pick red or blue"]) rfl rfl rfl
      (Retries.zero "blue" (Tty.mk [] ["Sorry, your reply was invalid: pick red or blue"])))
    rfl rfl (by decide)).1

/-- C2, as the code has it: with a nil target `Ask` first calls
`terminal.GetReadline`; when that call fails `Ask` returns its error (line 47),
otherwise it returns the error made on line 53. In both cases the log holds the
acquisition and nothing else: no prompt is called, nothing is printed, nothing
is written, whatever the questions and the fuel. -/
theorem ask_nil_target (env : Env W RL T A E) (fuel : Nat) (qs : List (Question W RL A E))
    (w : W) :
    Ask env fuel qs none w =
      ((match (env.GetReadline w).1.2 with
          | some e => .ret 47 (some e)
          | none => .ret 53 (some (env.errorsNew
              "cannot call Ask() with a nil reference to record the answers"))),
        none, ⟨(env.GetReadline w).2, [.acquire]⟩) := by
  unfold Ask
  cases hg : (env.GetReadline w).1.2 <;> simp [hg]

/-- C2 fails as stated: away from a terminal `Ask(qs, nil)` returns the error
of `GetReadline`, not the error of line 53; and at a terminal the readline
instance has been acquired by the time the error of line 53 is returned. -/
theorem ask_nil_target_acquires_first :
    (Ask noTtyEnv 0 [nameQ] none ⟨["Ann"], []⟩).1 = .ret 47 (some "not a terminal") ∧
    (Ask noTtyEnv 0 [nameQ] none ⟨["Ann"], []⟩).1.err ≠
      some (some (noTtyEnv.errorsNew
        "cannot call Ask() with a nil reference to record the answers")) ∧
    (Ask demoEnv 0 [nameQ] none ⟨["Ann"], []⟩).1 =
      .ret 53 (some "cannot call Ask() with a nil reference to record the answers") ∧
    (Ask demoEnv 0 [nameQ] none ⟨["Ann"], []⟩).2.2.log = [.acquire] := by
  refine ⟨rfl, ?_, rfl, rfl⟩
  decide

/-- C10, as the code has it: on the empty list and a non-nil target `Ask` calls
`terminal.GetReadline` and nothing else; it returns the error of that call when
there is one (line 47) and no error otherwise (line 101). The target is the one
passed in, and the log holds the acquisition only: no prompt, no error line, no
write. -/
theorem ask_no_questions (env : Env W RL T A E) (fuel : Nat) (t : T) (w : W) :
    Ask env fuel [] (some t) w =
      ((match (env.GetReadline w).1.2 with
          | some e => .ret 47 (some e)
          | none => .ret 101 none),
        some t, ⟨(env.GetReadline w).2, [.acquire]⟩) := by
  unfold Ask
  cases hg : (env.GetReadline w).1.2 <;> simp [hg, askLoop]

/-- C10 fails as stated: away from a terminal `Ask` on the empty list and a
non-nil target returns an error. -/
theorem ask_no_questions_no_terminal :
    (Ask noTtyEnv 0 [] (some [("name", "Ann")]) ⟨[], []⟩).1
      = .ret 47 (some "not a terminal") ∧
    (Ask noTtyEnv 0 [] (some [("name", "Ann")]) ⟨[], []⟩).1.err ≠ some none := by
  refine ⟨rfl, ?_⟩
  decide

/-- C5: `AskOne` returns the error that `Ask` returns on the one-question list
with the empty name, the given prompt and the given validator, and leaves the
same record, the same world and the same log of prompts, validator calls, error
lines, cleanup and write; this for every target, nil included, every validator,
nil included, and every fuel. There is at most one write, and it is under the
empty name. -/
theorem askOne_refines_ask (env : Env W RL T A E) (fuel : Nat) (p : Survey.Prompt W RL A E)
    (t : Option T) (v : Option (Validator A E)) (w : W) :
    (AskOne env fuel p t v w).1.err = (AskOneSpec env fuel p t v w).1.err ∧
    (AskOne env fuel p t v w).2 = (AskOneSpec env fuel p t v w).2 ∧
    (writes (AskOne env fuel p t v w).2.2.log = [] ∨
      ∃ a, writes (AskOne env fuel p t v w).2.2.log = [("", a)]) := by
  have h2 : (AskOne env fuel p t v w).2 = (AskOneSpec env fuel p t v w).2 := by
    unfold AskOne AskOneSpec
    generalize Ask env fuel [{ Name := "", Prompt := p, Validate := v }] t w = r
    obtain ⟨x, y⟩ := r
    cases x with
    | ret line err => cases err <;> rfl
    | hang => rfl
  refine ⟨?_, h2, ?_⟩
  · unfold AskOne AskOneSpec
    generalize Ask env fuel [{ Name := "", Prompt := p, Validate := v }] t w = r
    obtain ⟨x, y⟩ := r
    cases x with
    | ret line err => cases err <;> rfl
    | hang => rfl
  · rw [h2]
    unfold AskOneSpec
    obtain ⟨n, hn, hf⟩ := Ask_writes env fuel [{ Name := "", Prompt := p, Validate := v }] t w
    generalize writes (Ask env fuel [{ Name := "", Prompt := p, Validate := v }] t w).2.2.log
      = ws at hf ⊢
    have hn1 : n = 0 ∨ n = 1 := by
      simp only [List.length_singleton] at hn
      omega
    rcases hn1 with rfl | rfl
    · left
      simpa using hf
    · right
      simp only [List.take_succ_cons, List.take_zero] at hf
      cases hf with
      | cons h1 h3 =>
        cases h3
        rename_i wr
        have h4 : wr.1 = "" := h1.1
        exact ⟨wr.2, by rw [← h4]⟩

/-- C6: in every run of `Ask`, finished, aborted or still in the re-prompt
loop when the fuel runs out, the writes answer, one for one and in order, the
first `n` questions of the list for some `n`: so there is at most one write for
a question, and a value written for a question that has a validator is a value
that validator accepts. -/
theorem ask_writes_once_and_validated (env : Env W RL T A E) (fuel : Nat)
    (qs : List (Question W RL A E)) (t : Option T) (w : W) :
    ∃ n, n ≤ qs.length ∧
      List.Forall₂ WrittenFor (qs.take n) (writes (Ask env fuel qs t w).2.2.log) :=
  Ask_writes env fuel qs t w

/-- C9 fails on the code: `AskOne` hands its validator to `Ask`, which calls it.
Here the prompt answers "green", then "blue"; the validator is called on both,
"green" is rejected with an error line, and "blue" is what is written. -/
theorem askOne_validates :
    AskOne demoEnv 2 textPrompt (some []) (some colorCheck) ⟨["green", "blue"], []⟩ =
      (.ret 39 none, some [("", "blue")],
        ⟨⟨[], ["Sorry, your reply was invalid: pick red or blue"]⟩,
          [.acquire, .prompt "", .validate "" "green",
            .print "Sorry, your reply was invalid: pick red or blue",
            .prompt "", .validate "" "blue", .cleanup "" "blue", .write "" "blue"]⟩) := by
  rfl

/-- C3: a read of the prompt of question `q` fails with error `e`, at the first
attempt or at a re-prompt after rejected answers, the questions `pre` before it
having run to the end in record `t1` and state `s1`. Then `Ask` returns `e`
itself, at the return that follows the failed read, whatever questions `post`
come after; the record is the one the earlier questions left; the writes are
those of the earlier questions, which answer them one for one and in order;
there is no write for `q` or for a later question. -/
theorem ask_read_failure_aborts (env : Env W RL T A E) (fuel : Nat)
    (pre : List (Question W RL A E)) (q : Question W RL A E)
    (post : List (Question W RL A E)) (rl : RL) (t t1 : T) (w0 : W) (s1 : State W A)
    (n line : Nat) (e : E) (evs : List (Event A)) (wf : W)
    (hrl : (env.GetReadline w0).1.1 = rl)
    (hpre : Ask env fuel pre (some t) w0 = (.ret 101 none, some t1, s1))
    (hfail : ReadFails env q rl n s1.world line e evs wf)
    (hfuel : n ≤ fuel) :
    Ask env fuel (pre ++ q :: post) (some t) w0
      = (.ret line (some e), some t1, ⟨wf, s1.log ++ evs⟩) ∧
    writes (s1.log ++ evs) = writes s1.log ∧
    List.Forall₂ WrittenFor pre (writes s1.log) := by
  subst hrl
  refine ⟨?_, ?_, ?_⟩
  · rw [Ask_append_ok hpre (q :: post)]
    simp [askLoop, askQuestion_readFails fuel t1 s1 hfail hfuel]
  · simp [writes_append, readFails_writes_nil hfail]
  · obtain ⟨-, hl⟩ := Ask_ok_loop hpre
    obtain ⟨m, ws, -, hws, hf, hend⟩ :=
      askLoop_writes env fuel (env.GetReadline w0).1.1 pre t ⟨(env.GetReadline w0).2, [.acquire]⟩
    rw [hl] at hws hend
    have hm : m = pre.length := hend rfl
    subst hm
    simp only [List.take_length] at hf
    simp only [hws]
    simpa [writes] using hf

/-- C3 on an example: the first question is answered, the colour question gets
"green", which is rejected, and the input ends: the re-prompt fails with "EOF",
which is what `Ask` returns; only the first answer is written. -/
theorem ask_read_failure_aborts_witness :
    Ask demoEnv 1 ([nameQ] ++ colorQ :: [nameQ]) (some []) ⟨["Ann", "green"], []⟩
      = (.ret 79 (some "EOF"), some [("name", "Ann")],
        ⟨⟨[], ["Sorry, your reply was invalid: pick red or blue"]⟩,
          [.acquire, .prompt "name", .cleanup "name" "Ann", .write "name" "Ann"] ++
          ([.prompt "color"] ++ [] ++ [.validate "color" "green",
            .print "Sorry, your reply was invalid: pick red or blue", .prompt "color"])⟩) :=
  (ask_read_failure_aborts demoEnv 1 [nameQ] colorQ [nameQ] () [] [("name", "Ann")]
    ⟨["Ann", "green"], []⟩
    ⟨⟨["green"], []⟩, [.acquire, .prompt "name", .cleanup "name" "Ann", .write "name" "Ann"]⟩
    1 79 "EOF" _ ⟨[], ["Sorry, your reply was invalid: pick red or blue"]⟩
    rfl rfl
    (ReadFails.again colorCheck 0 (Tty.mk ["green"] []) "green" (Tty.mk [] []) [] "green"
      (Tty.mk [] []) "pick red or blue" "Sorry, your reply was invalid: pick red or blue"
      "" "EOF" (Tty.mk [] ["Sorry, your reply was invalid: pick red or blue"])
      rfl rfl (Retries.zero "green" (Tty.mk [] [])) rfl rfl rfl)
    (Nat.le_refl 1)).1

/-- C8: the write of the answer of question `q` fails with error `e`, the
questions `pre` before it having run to the end and `q` itself having been read
and validated. Then `Ask` returns `e` itself (line 97), and record, world and
log are the same whatever questions `post` come after: the log is that of the
earlier questions followed by the calls made for `q`, the failed write last, so
no prompt, validator, cleanup hook or write of a later question is called. -/
theorem ask_write_failure_aborts (env : Env W RL T A E) (fuel : Nat)
    (pre : List (Question W RL A E)) (q : Question W RL A E)
    (post : List (Question W RL A E)) (rl : RL) (t t1 t2 : T) (w0 : W) (s1 : State W A)
    (n : Nat) (a0 ak : A) (wa wk : W) (e : E) (evs : List (Event A))
    (hrl : (env.GetReadline w0).1.1 = rl)
    (hpre : Ask env fuel pre (some t) w0 = (.ret 101 none, some t1, s1))
    (hp : q.Prompt.Prompt rl s1.world = ((a0, none), wa))
    (hs : Settles env q rl n a0 wa evs ak wk)
    (hw : env.WriteAnswer t1 q.Name ak = (some e, t2))
    (hfuel : n ≤ fuel) :
    Ask env fuel (pre ++ q :: post) (some t) w0
      = (.ret 97 (some e), some t2,
        ⟨(q.Prompt.Cleanup rl ak wk).2,
          s1.log ++ [.prompt q.Name] ++ evs ++ [.cleanup q.Name ak, .write q.Name ak]⟩) ∧
    Ask env fuel (pre ++ q :: post) (some t) w0 = Ask env fuel (pre ++ [q]) (some t) w0 := by
  subst hrl
  have hq := askQuestion_settles fuel t1 s1 hp hs hfuel
  have key : ∀ l : List (Question W RL A E), Ask env fuel (pre ++ q :: l) (some t) w0
      = (.ret 97 (some e), some t2,
        ⟨(q.Prompt.Cleanup (env.GetReadline w0).1.1 ak wk).2,
          s1.log ++ [.prompt q.Name] ++ evs ++ [.cleanup q.Name ak, .write q.Name ak]⟩) := by
    intro l
    rw [Ask_append_ok hpre (q :: l)]
    simp [askLoop, hq, hw]
  exact ⟨key post, by rw [key post, key []]⟩

/-- C8 on an example: the second question names a field that cannot be
written; `Ask` returns the error of the write and the colour question that
follows is never asked. -/
theorem ask_write_failure_aborts_witness :
    Ask demoEnv 0 ([nameQ] ++ lockedQ :: [colorQ]) (some []) ⟨["Ann", "x", "red"], []⟩
      = (.ret 97 (some "no such field"), some [("name", "Ann")],
        ⟨⟨["red"], []⟩,
          [.acquire, .prompt "name", .cleanup "name" "Ann", .write "name" "Ann"]
            ++ [.prompt "locked"] ++ [] ++ [.cleanup "locked" "x", .write "locked" "x"]⟩) :=
  (ask_write_failure_aborts demoEnv 0 [nameQ] lockedQ [colorQ] () [] [("name", "Ann")]
    [("name", "Ann")] ⟨["Ann", "x", "red"], []⟩
    ⟨⟨["x", "red"], []⟩, [.acquire, .prompt "name", .cleanup "name" "Ann", .write "name" "Ann"]⟩
    0 "x" "x" ⟨["red"], []⟩ ⟨["red"], []⟩ "no such field" []
    rfl rfl rfl (Settles.unchecked "x" (Tty.mk ["red"] []) rfl) rfl (Nat.le_refl 0)).1

/-- C7: a failure returned by a cleanup hook is not fatal. Question `q` stands
anywhere in the list, the questions `pre` before it having run to the end; its
prompt is read, its validation step ends with the answer `ak`, and its cleanup
hook, called with `ak`, returns the error `ce`. Then `Ask` goes on to the write
step: `WriteAnswer` is called with `ak` under the name of `q`, and it is the
error of the write, not `ce`, that decides: a failed write is returned at line
97, and after a successful one the run is the loop over the remaining questions
`post`, started from the record the write left and the world the hook left. The
log shows the same: the cleanup call is followed by the write and then, when
the write succeeded and a question remains, by the read of the prompt of the
next question. Further, for every run of `Ask`: replacing the errors the hooks
return by any others (`c` chooses them) changes nothing in the result, and
`Ask` never leaves by the return of line 90, the one guarded by the check that
follows the call of the hook. -/
theorem ask_ignores_cleanup_error (env : Env W RL T A E) (fuel : Nat)
    (pre : List (Question W RL A E)) (q : Question W RL A E)
    (post : List (Question W RL A E)) (rl : RL) (t t1 : T) (w0 : W) (s1 : State W A)
    (n : Nat) (a0 ak : A) (wa wk : W) (ce : E) (evs : List (Event A))
    (hrl : (env.GetReadline w0).1.1 = rl)
    (hpre : Ask env fuel pre (some t) w0 = (.ret 101 none, some t1, s1))
    (hp : q.Prompt.Prompt rl s1.world = ((a0, none), wa))
    (hs : Settles env q rl n a0 wa evs ak wk)
    (hc : (q.Prompt.Cleanup rl ak wk).1 = some ce)
    (hfuel : n ≤ fuel) :
    Ask env fuel (pre ++ q :: post) (some t) w0 =
      (match (env.WriteAnswer t1 q.Name ak).1 with
        | some e =>
          (.ret 97 (some e), some (env.WriteAnswer t1 q.Name ak).2,
            ⟨(q.Prompt.Cleanup rl ak wk).2,
              s1.log ++ [.prompt q.Name] ++ evs ++ [.cleanup q.Name ak, .write q.Name ak]⟩)
        | none =>
          ((askLoop env fuel rl post (env.WriteAnswer t1 q.Name ak).2
              ⟨(q.Prompt.Cleanup rl ak wk).2,
                s1.log ++ [.prompt q.Name] ++ evs
                  ++ [.cleanup q.Name ak, .write q.Name ak]⟩).1,
            some (askLoop env fuel rl post (env.WriteAnswer t1 q.Name ak).2
              ⟨(q.Prompt.Cleanup rl ak wk).2,
                s1.log ++ [.prompt q.Name] ++ evs
                  ++ [.cleanup q.Name ak, .write q.Name ak]⟩).2.1,
            (askLoop env fuel rl post (env.WriteAnswer t1 q.Name ak).2
              ⟨(q.Prompt.Cleanup rl ak wk).2,
                s1.log ++ [.prompt q.Name] ++ evs
                  ++ [.cleanup q.Name ak, .write q.Name ak]⟩).2.2)) ∧
    (∃ more, (Ask env fuel (pre ++ q :: post) (some t) w0).2.2.log =
      s1.log ++ [.prompt q.Name] ++ evs ++ [.cleanup q.Name ak, .write q.Name ak]
        ++ (match (env.WriteAnswer t1 q.Name ak).1 with
            | some _ => []
            | none => (post.head?.map (fun q2 => Event.prompt q2.Name)).toList)
        ++ more) ∧
    (∀ (fuel2 : Nat) (qs : List (Question W RL A E)) (t3 : Option T) (w : W)
        (c : Question W RL A E → RL → A → W → Option E),
      Ask env fuel2 (qs.map (cleanupReturning c)) t3 w = Ask env fuel2 qs t3 w) ∧
    (∀ (fuel2 : Nat) (qs : List (Question W RL A E)) (t3 : Option T) (w : W) (e : Option E),
      (Ask env fuel2 qs t3 w).1 ≠ .ret 90 e) := by
  subst hrl
  have hq := askQuestion_settles fuel t1 s1 hp hs hfuel
  have key : Ask env fuel (pre ++ q :: post) (some t) w0 =
      (match (env.WriteAnswer t1 q.Name ak).1 with
        | some e =>
          (.ret 97 (some e), some (env.WriteAnswer t1 q.Name ak).2,
            ⟨(q.Prompt.Cleanup (env.GetReadline w0).1.1 ak wk).2,
              s1.log ++ [.prompt q.Name] ++ evs ++ [.cleanup q.Name ak, .write q.Name ak]⟩)
        | none =>
          ((askLoop env fuel (env.GetReadline w0).1.1 post (env.WriteAnswer t1 q.Name ak).2
              ⟨(q.Prompt.Cleanup (env.GetReadline w0).1.1 ak wk).2,
                s1.log ++ [.prompt q.Name] ++ evs
                  ++ [.cleanup q.Name ak, .write q.Name ak]⟩).1,
            some (askLoop env fuel (env.GetReadline w0).1.1 post
              (env.WriteAnswer t1 q.Name ak).2
              ⟨(q.Prompt.Cleanup (env.GetReadline w0).1.1 ak wk).2,
                s1.log ++ [.prompt q.Name] ++ evs
                  ++ [.cleanup q.Name ak, .write q.Name ak]⟩).2.1,
            (askLoop env fuel (env.GetReadline w0).1.1 post (env.WriteAnswer t1 q.Name ak).2
              ⟨(q.Prompt.Cleanup (env.GetReadline w0).1.1 ak wk).2,
                s1.log ++ [.prompt q.Name] ++ evs
                  ++ [.cleanup q.Name ak, .write q.Name ak]⟩).2.2)) := by
    rw [Ask_append_ok hpre (q :: post)]
    simp only [askLoop, hq]
    cases hw : (env.WriteAnswer t1 q.Name ak).1 <;> simp
  refine ⟨key, ?_, ?_, ?_⟩
  · rw [key]
    cases hw : (env.WriteAnswer t1 q.Name ak).1 with
    | some e => exact ⟨[], by simp⟩
    | none =>
      obtain ⟨more, hm⟩ := askLoop_log env fuel (env.GetReadline w0).1.1 post
        (env.WriteAnswer t1 q.Name ak).2
        ⟨(q.Prompt.Cleanup (env.GetReadline w0).1.1 ak wk).2,
          s1.log ++ [.prompt q.Name] ++ evs ++ [.cleanup q.Name ak, .write q.Name ak]⟩
      exact ⟨more, by simpa using hm⟩
  · intro fuel2 qs t3 w c
    unfold Ask
    simp only [askLoop_cleanupReturning]
  · intro fuel2 qs t3 w e
    unfold Ask
    cases hg : (env.GetReadline w).1.2 with
    | some e1 => simp [hg]
    | none =>
      cases t3 with
      | none => simp [hg]
      | some t0 =>
        simp only [hg]
        have h := askLoop_exit env fuel2 (env.GetReadline w).1.1 qs t0
          ⟨(env.GetReadline w).2, [.acquire]⟩
        rcases h with h | h | ⟨e2, h | h | h | h⟩ <;> rw [h] <;> simp

/-- C7 on an example: the cleanup hook of the first question fails; its answer
is written all the same, the colour question that follows is asked and written,
and `Ask` returns no error. -/
theorem ask_ignores_cleanup_error_witness :
    (sloppyQ.Prompt.Cleanup () "Ann" ⟨["red"], []⟩).1 = some "cleanup failed" ∧
    Ask demoEnv 1 ([] ++ sloppyQ :: [colorQ]) (some []) ⟨["Ann", "red"], []⟩ =
      (.ret 101 none, some [("name", "Ann"), ("color", "red")],
        ⟨⟨[], []⟩,
          [.acquire, .prompt "name", .cleanup "name" "Ann", .write "name" "Ann",
            .prompt "color", .validate "color" "red", .cleanup "color" "red",
            .write "color" "red"]⟩) :=
  ⟨rfl,
    (ask_ignores_cleanup_error demoEnv 1 [] sloppyQ [colorQ] () [] []
      ⟨["Ann", "red"], []⟩ ⟨⟨["Ann", "red"], []⟩, [.acquire]⟩
      0 "Ann" "Ann" ⟨["red"], []⟩ ⟨["red"], []⟩ "cleanup failed" []
      rfl rfl rfl (Settles.unchecked "Ann" (Tty.mk ["red"] []) rfl) rfl
      (Nat.zero_le 1)).1.trans rfl⟩

/-- C4, as the code has it: when the readline instance is acquired, the target
is not nil, and every question is settled at the first attempt (its prompt read
succeeds, its validator, if any, accepts the answer, and the write of the answer
succeeds), `Ask` returns no error, and its writes are one for each question, in
the order of the list, each under the name of its question and carrying the
answer of its prompt; no error line is printed. One unit of fuel is enough. -/
theorem ask_all_first_try (env : Env W RL T A E) (fuel : Nat)
    (qs : List (Question W RL A E)) (rl : RL) (t t2 : T) (w0 w1 w2 : W) (as : List A)
    (hg : env.GetReadline w0 = ((rl, none), w1))
    (hft : FirstTry env rl qs t w1 as t2 w2)
    (hfuel : 0 < fuel) :
    (Ask env fuel qs (some t) w0).1 = .ret 101 none ∧
    (Ask env fuel qs (some t) w0).2.1 = some t2 ∧
    (Ask env fuel qs (some t) w0).2.2.world = w2 ∧
    writes (Ask env fuel qs (some t) w0).2.2.log = (qs.map Question.Name).zip as ∧
    as.length = qs.length ∧
    errorLines (Ask env fuel qs (some t) w0).2.2.log = [] := by
  obtain ⟨log2, h1, h2, h3⟩ := askLoop_firstTry hft fuel hfuel [.acquire]
  unfold Ask
  simp only [hg, h1]
  exact ⟨trivial, trivial, trivial, by simpa [writes] using h2, firstTry_length hft,
    by simpa [errorLines] using h3⟩

/-- C4 on the colour example of the specification, asked after a first
question: "red" passes at once, both answers are written, no error line. -/
theorem ask_all_first_try_witness :
    (Ask demoEnv 1 [nameQ, colorQ] (some []) ⟨["Ann", "red"], []⟩).1 = .ret 101 none ∧
    (Ask demoEnv 1 [nameQ, colorQ] (some []) ⟨["Ann", "red"], []⟩).2.1
      = some [("name", "Ann"), ("color", "red")] ∧
    (Ask demoEnv 1 [nameQ, colorQ] (some []) ⟨["Ann", "red"], []⟩).2.2.world = ⟨[], []⟩ ∧
    writes (Ask demoEnv 1 [nameQ, colorQ] (some []) ⟨["Ann", "red"], []⟩).2.2.log
      = ([nameQ, colorQ].map Question.Name).zip ["Ann", "red"] ∧
    ["Ann", "red"].length = [nameQ, colorQ].length ∧
    errorLines (Ask demoEnv 1 [nameQ, colorQ] (some []) ⟨["Ann", "red"], []⟩).2.2.log = [] :=
  ask_all_first_try demoEnv 1 [nameQ, colorQ] () [] [("name", "Ann"), ("color", "red")]
    ⟨["Ann", "red"], []⟩ ⟨["Ann", "red"], []⟩ ⟨[], []⟩ ["Ann", "red"]
    rfl
    (FirstTry.cons nameQ [colorQ] [] (Tty.mk ["Ann", "red"] []) "Ann" (Tty.mk ["red"] [])
      [("name", "Ann")] ["red"] [("name", "Ann"), ("color", "red")] (Tty.mk [] [])
      rfl (fun v hv => by cases hv) rfl
      (FirstTry.cons colorQ [] [("name", "Ann")] (Tty.mk ["red"] []) "red" (Tty.mk [] [])
        [("name", "Ann"), ("color", "red")] [] [("name", "Ann"), ("color", "red")] (Tty.mk [] [])
        rfl (fun v hv => by cases hv; rfl) rfl
        (FirstTry.nil [("name", "Ann"), ("color", "red")] (Tty.mk [] []))))
    (by decide)

/-- C4 fails as stated: the prompt of the only question succeeds at the first
attempt and its validator accepts the answer at once, but the write fails and
`Ask` returns the error of the write. -/
theorem ask_first_try_write_fails :
    colorCheck "red" = none ∧
    Ask demoEnv 1 [lockedColorQ] (some []) ⟨["red"], []⟩
      = (.ret 97 (some "no such field"), some [],
        ⟨⟨[], []⟩, [.acquire, .prompt "locked", .validate "locked" "red",
          .cleanup "locked" "red", .write "locked" "red"]⟩) ∧
    (Ask demoEnv 1 [lockedColorQ] (some []) ⟨["red"], []⟩).1.err ≠ some none := by
  refine ⟨rfl, rfl, ?_⟩
  decide

end Survey
